import Mathlib

/-!
Shallow embedding of the gcplog repository (Go): HTTP middleware that wraps a
response writer, classifies the final status into a severity, derives a trace
context from a request header and forwards structured records to a logging
sink and (gated on the GO_ENV environment variable) an error-reporting sink.
The repository holds several evolutionary variants of the same design; each
definition below names the variant file and lines it embeds.
-/

namespace Gcplog

/-- Severities of the log platform (`logging.Info`, `logging.Warning`,
`logging.Error`). -/
inductive Severity where
  | info
  | warning
  | error
deriving DecidableEq

/-- Response data attached to an outbound `http.Response` (`r.Response` is a
pointer: `none` embeds the nil pointer of Go). -/
structure ResponseInfo where
  statusCode : Int
  contentLength : Int
deriving DecidableEq

/-- An inbound HTTP request with the fields the library reads. `response`
embeds the `Response` pointer field of `http.Request`, which is nil for every
request received by an HTTP server. -/
structure Request where
  method : String
  urlPath : String
  headers : List (String × String)
  contentLength : Int := 0
  remoteAddr : String := ""
  response : Option ResponseInfo := none
deriving DecidableEq

/-- `r.Header.Get(key)`: the first value stored for the key, `""` when the
header is absent. -/
def headerGet (headers : List (String × String)) (key : String) : String :=
  match headers.find? (fun p => p.1 == key) with
  | some p => p.2
  | none => ""

/-- The status branch at the end of `middleware`
(src/mw_gcplog.go lines 152-158): `if status < 400` log, `else if status >=
400 && status < 500` warn, `else` error. -/
def middlewareSeverity (status : Int) : Severity :=
  if status < 400 then .info
  else if 400 ≤ status ∧ status < 500 then .warning
  else .error

/-- The status branch of the Gin adapter (src/gin_gcplog.go lines 41-57):
`if status < 400` LogR, `if status >= 400 && status < 500` WarnR `else`
ErrorR. -/
def ginSeverity (status : Int) : Severity :=
  if status < 400 then .info
  else if 400 ≤ status ∧ status < 500 then .warning
  else .error

/-- A call forwarded to the wrapped (underlying) `http.ResponseWriter`. -/
inductive SinkCall where
  | writeHeader (code : Int)
  | write (b : String)
deriving DecidableEq

/-- State of the `responseWriter` wrapper (src/mw_gcplog.go lines 12-18), plus
the trace of calls it forwarded to the underlying writer. Go zero values:
status 0, size 0, empty body buffer, `wroteHeader` false. Written bytes are
embedded as a `String` (the middleware only reads them via `body.String()`). -/
structure ResponseWriter where
  status : Int
  size : Nat
  body : String
  wroteHeader : Bool
  forwarded : List SinkCall
deriving DecidableEq

/-- `wrapResponseWriter` (src/mw_gcplog.go lines 20-22). -/
def wrapResponseWriter : ResponseWriter :=
  { status := 0, size := 0, body := "", wroteHeader := false, forwarded := [] }

/-- `(rw *responseWriter) Write(b)` (src/mw_gcplog.go lines 32-35): appends
`b` to the body buffer and forwards the write; `rw.size` is not changed by
this method in the source. -/
def ResponseWriter.writeBody (rw : ResponseWriter) (b : String) : ResponseWriter :=
  { rw with body := rw.body ++ b, forwarded := rw.forwarded ++ [.write b] }

/-- `(rw *responseWriter) WriteHeader(code)` (src/mw_gcplog.go lines 37-50):
an already-committed header makes the call return at once; otherwise the code
is recorded, the serialized length of `rw.Header()` (`headerBytes` here) is
added to `rw.size`, the call is forwarded and the latch is set. -/
def ResponseWriter.writeHeader (rw : ResponseWriter) (headerBytes : Nat) (code : Int) :
    ResponseWriter :=
  if rw.wroteHeader then rw
  else
    { rw with
      status := code
      size := rw.size + headerBytes
      wroteHeader := true
      forwarded := rw.forwarded ++ [.writeHeader code] }

/-- One call the downstream handler makes on the wrapper. -/
inductive HandlerCall where
  | writeHeader (code : Int)
  | write (b : String)
deriving DecidableEq

/-- Runs the sequence of calls a handler makes against the wrapper state. -/
def runCalls (headerBytes : Nat) (calls : List HandlerCall) (rw : ResponseWriter) :
    ResponseWriter :=
  match calls with
  | [] => rw
  | .writeHeader c :: rest => runCalls headerBytes rest (rw.writeHeader headerBytes c)
  | .write b :: rest => runCalls headerBytes rest (rw.writeBody b)

/-- The code of the first `WriteHeader` call in a sequence, if any. -/
def firstStatus : List HandlerCall → Option Int
  | [] => none
  | .writeHeader c :: _ => some c
  | .write _ :: rest => firstStatus rest

/-- `defaultLogBuilder` (src/mw_gcplog.go lines 52-58). -/
def defaultLogBuilder (r : Request) : String :=
  if headerGet r.headers "X-Request-ID" ≠ "" then
    "[" ++ headerGet r.headers "X-Request-ID" ++ "] " ++ (r.method ++ " " ++ r.urlPath)
  else r.method ++ " " ++ r.urlPath

/-- `defaultErrorBuilder` (src/mw_gcplog.go lines 60-68): the branch tests
whether the body buffer pointer is nil (`body != nil`), not whether the
buffer is empty. `fmt.Errorf` is embedded as the message string of the
produced error (no format-verb expansion; this development never evaluates
it on a string containing a percent sign). -/
def defaultErrorBuilder (r : Request) (status : Int) (size : Nat) (body : Option String) :
    String :=
  match body with
  | some b => b
  | none => r.method ++ " " ++ r.urlPath

/-- The `options` record of src/mw_gcplog.go lines 74-78 (the user extractor
is irrelevant to the claims and omitted from the dispatch). -/
structure Options where
  logBuilder : Request → String
  errorBuilder : Request → Int → Nat → Option String → String

/-- The default options installed by `Middleware` (src/mw_gcplog.go lines 104-113). -/
def defaultOptions : Options :=
  { logBuilder := defaultLogBuilder, errorBuilder := defaultErrorBuilder }

/-- What the middleware emits after the handler returns normally. -/
inductive Dispatch where
  | logRM (summary : String)
  | warnRM (errMsg : String)
  | errorRM (errMsg : String)
deriving DecidableEq

/-- The after-request block of `middleware` (src/mw_gcplog.go lines 142-158):
the summary comes from `options.logBuilder(r)`, the error from
`options.errorBuilder(r, wrapped.status, wrapped.size, wrapped.body)` — the
body buffer pointer is always non-nil — and the status picks the emission. -/
def middlewareDispatch (opts : Options) (r : Request) (rw : ResponseWriter) : Dispatch :=
  if rw.status < 400 then .logRM (opts.logBuilder r)
  else if 400 ≤ rw.status ∧ rw.status < 500 then
    .warnRM (opts.errorBuilder r rw.status rw.size (some rw.body))
  else .errorRM (opts.errorBuilder r rw.status rw.size (some rw.body))

/-- The severity of an emitted record. -/
def Dispatch.severity : Dispatch → Severity
  | .logRM _ => .info
  | .warnRM _ => .warning
  | .errorRM _ => .error

/-- Runtime panics the embedded Go code can raise. -/
inductive GoPanic where
  | nilPointerDereference
  | indexOutOfRange
  | interfaceConversion
deriving DecidableEq

/-- The character class of the trace regex, written in the source as a
backslash-escaped hex class (lowercase hex letters and decimal digits). -/
def isTraceHex (c : Char) : Bool :=
  ('a' ≤ c && c ≤ 'f') || ('0' ≤ c && c ≤ '9')

/-- The single-digit class of the sampling flag group. -/
def isDigitChar (c : Char) : Bool :=
  '0' ≤ c && c ≤ '9'

/-- The submatch groups of the trace regex of src/unnamed/part_003 lines
386-392 — three optional parts, TRACE_ID, /SPAN_ID and the sampling flag
after a semicolon-o-equals marker — at the start of the input. The pattern
is nullable, so the leftmost search of Go always matches at index 0, and every
part after a quantified group is nullable, so the greedy quantifiers never
backtrack: group 1 is the maximal leading hex run, group 2 the maximal hex
run after a following slash (present only if non-empty), group 3 the digit
directly after the marker. -/
def traceSubmatch (cs : List Char) : List Char × List Char × List Char :=
  let g1 := cs.takeWhile isTraceHex
  let r1 := cs.dropWhile isTraceHex
  let step2 : List Char × List Char :=
    match r1 with
    | c :: rest =>
      if c = '/' ∧ rest.takeWhile isTraceHex ≠ [] then
        (rest.takeWhile isTraceHex, rest.dropWhile isTraceHex)
      else ([], r1)
    | [] => ([], r1)
  let g3 : List Char :=
    match step2.2 with
    | c1 :: c2 :: c3 :: d :: _ =>
      if c1 = ';' ∧ c2 = 'o' ∧ c3 = '=' ∧ isDigitChar d then [d] else []
    | _ => []
  (g1, step2.1, g3)

/-- `traceRegex.FindStringSubmatch(header)` : `none` would mean "no match",
but the pattern is nullable, so a (possibly empty) match always exists. -/
def findTraceSubmatch (header : String) : Option (List Char × List Char × List Char) :=
  some (traceSubmatch header.data)

/-- `parseTrace(r, projectId)` of the request-bound variant
(src/unnamed/part_003 lines 385-402): regex submatch on the trace header
(an absent header reads as `""`), sampled iff group 3 is `"1"`, a span id of
literally `"0"` normalized to `""`; `projectId` is unused by this variant.
Indexing the submatch slice would panic had the search found no match. -/
def parseTraceR (header : String) (projectId : String) :
    Except GoPanic (String × String × Bool) :=
  match findTraceSubmatch header with
  | none => .error .indexOutOfRange
  | some (g1, g2, g3) =>
    let traceId := String.mk g1
    let spanId := String.mk g2
    let traceSampled := decide (String.mk g3 = "1")
    let spanId := if spanId = "0" then "" else spanId
    .ok (traceId, spanId, traceSampled)

/-- `parseTrace(r, projectId)` of the response-metadata variant
(src/unnamed/part_003 lines 631-651): as `parseTraceR`, and a non-empty
trace id is rewritten to the fully qualified resource name
`projects/<projectId>/traces/<traceId>`. -/
def parseTraceRM (header : String) (projectId : String) :
    Except GoPanic (String × String × Bool) :=
  match findTraceSubmatch header with
  | none => .error .indexOutOfRange
  | some (g1, g2, g3) =>
    let traceId := String.mk g1
    let spanId := String.mk g2
    let traceSampled := decide (String.mk g3 = "1")
    let traceId :=
      if traceId ≠ "" then "projects/" ++ projectId ++ "/traces/" ++ traceId else traceId
    let spanId := if spanId = "0" then "" else spanId
    .ok (traceId, spanId, traceSampled)

/-- The split of a character list on the slash separator, as performed by
the strings package on a one-character separator: the result always has at
least one element, and the empty input yields one empty part. -/
def splitOnSlash : List Char → List (List Char)
  | [] => [[]]
  | c :: rest =>
    if c = '/' then [] :: splitOnSlash rest
    else
      match splitOnSlash rest with
      | h :: t => (c :: h) :: t
      | [] => [[c]]

/-- `parseTrace(r, projectId)` of src/mw_gcplog.go lines 298-306: splits the
header on the slash and, when the first part is non-empty, returns the fully
qualified resource name, otherwise the empty string. -/
def parseTraceSplit (header : String) (projectId : String) : String :=
  match splitOnSlash header.data with
  | p :: _ =>
    if p.length > 0 then "projects/" ++ projectId ++ "/traces/" ++ String.mk p else ""
  | [] => ""

/-- The optional span part of a well-formed trace header. -/
def spanPart : Option (List Char) → List Char
  | some s => '/' :: s
  | none => []

/-- The optional sampling-flag part of a well-formed trace header. -/
def flagPart : Option Char → List Char
  | some d => [';', 'o', '=', d]
  | none => []

/-- A well-formed trace header: TRACE_ID, optional /SPAN_ID, optional
sampling flag. -/
def mkTraceHeader (t : List Char) (s : Option (List Char)) (f : Option Char) : String :=
  String.mk (t ++ spanPart s ++ flagPart f)

/-- A Go panic value: either a value whose dynamic type implements the error
interface, or any other value (for example a plain string). -/
inductive PanicValue where
  | errValue (msg : String)
  | nonErrValue (descr : String)
deriving DecidableEq

/-- The single-result type assertion on the recovered value: it yields the
error when the dynamic type implements error and otherwise panics with an
interface-conversion failure. -/
def assertError : PanicValue → Except GoPanic String
  | .errValue m => .ok m
  | .nonErrValue _ => .error .interfaceConversion

/-- What the deferred recovery block of `middleware` did for one request. -/
structure RecoveryResult where
  statusForced : Option Int
  emitted : List String
  repanicked : Bool
deriving DecidableEq

/-- The deferred function of `middleware` (src/mw_gcplog.go lines 129-136)
when the handler panicked with value `v`: `recover()` returns `v` (non-nil),
the 500 header is written on the raw writer, then the recovered value is
type-asserted to error and passed to the ERROR emission; a failed assertion
panics out of the deferred function itself, so at that point only the header
write has happened and the new panic escapes to the HTTP server. -/
def recoverBlock (v : PanicValue) : RecoveryResult :=
  match assertError v with
  | .ok msg => { statusForced := some 500, emitted := [msg], repanicked := false }
  | .error _ => { statusForced := some 500, emitted := [], repanicked := true }

/-- The downstream handler either returns after a sequence of calls on the
wrapped writer, or panics with some value. -/
inductive HandlerOutcome where
  | completes (calls : List HandlerCall)
  | panics (v : PanicValue)
deriving DecidableEq

/-- What one request produced at the middleware boundary. -/
structure MwResult where
  dispatch : Option Dispatch
  recovery : Option RecoveryResult
deriving DecidableEq

/-- One request through `middleware` (src/mw_gcplog.go lines 122-163): wrap
the writer, run the handler, then either dispatch by status or run the
recovery block. -/
def middlewareRun (opts : Options) (r : Request) (headerBytes : Nat) :
    HandlerOutcome → MwResult
  | .completes calls =>
    { dispatch :=
        some (middlewareDispatch opts r (runCalls headerBytes calls wrapResponseWriter)),
      recovery := none }
  | .panics v => { dispatch := none, recovery := some (recoverBlock v) }

/-- The fields of the `logging.HTTPRequest` record the library fills
(request pointers and durations carried abstractly; latency is the integer
taken from the response metadata). -/
structure HTTPRequestRecord where
  requestSize : Int
  status : Int
  responseSize : Int
  latency : Int
  localIP : String
  remoteIP : String
deriving DecidableEq

/-- `ResponseMetadata` (src/unnamed/part_003 lines 427-431). -/
structure ResponseMetadata where
  Status : Int
  Size : Int
  Latency : Int
deriving DecidableEq

/-- `parseRequest(r, w)` of the response-metadata variant
(src/unnamed/part_003 lines 606-629): local IP falls back from X-Real-Ip to
X-Forwarded-For to the remote address; status, response size and latency are
taken from the metadata when present and stay zero values otherwise. -/
def parseRequestRM (r : Request) (w : Option ResponseMetadata) : HTTPRequestRecord :=
  let ip0 := headerGet r.headers "X-Real-Ip"
  let ip1 := if ip0 = "" then headerGet r.headers "X-Forwarded-For" else ip0
  let localIp := if ip1 = "" then r.remoteAddr else ip1
  let base : HTTPRequestRecord :=
    { requestSize := r.contentLength, status := 0, responseSize := 0, latency := 0,
      localIP := localIp, remoteIP := r.remoteAddr }
  match w with
  | some meta =>
    { base with status := meta.Status, responseSize := meta.Size, latency := meta.Latency }
  | none => base

/-- `parseRequest(r)` of the request-bound variant (src/unnamed/part_003
lines 361-383): the struct literal reads `r.Response.StatusCode` and
`r.Response.ContentLength`; a nil `Response` pointer makes that read panic. -/
def parseRequestReq (r : Request) : Except GoPanic HTTPRequestRecord :=
  let ip0 := headerGet r.headers "X-Real-Ip"
  let ip1 := if ip0 = "" then headerGet r.headers "X-Forwarded-For" else ip0
  let localIp := if ip1 = "" then r.remoteAddr else ip1
  match r.response with
  | none => .error .nilPointerDereference
  | some resp =>
    .ok { requestSize := r.contentLength, status := resp.statusCode,
          responseSize := resp.contentLength, latency := 0,
          localIP := localIp, remoteIP := r.remoteAddr }

/-- One structured entry handed to the logging sink, with the `logging.Entry`
fields the library populates. -/
structure LogSinkEntry where
  payload : String
  severity : Severity
  httpRequest : Option HTTPRequestRecord
  trace : String
  spanId : String
  traceSampled : Bool
  userLabel : Option String
deriving DecidableEq

/-- One entry handed to the error-reporting sink: the error, whether a stack
trace was attached, and the original request when available. -/
structure ErrReport where
  errMsg : String
  hasStack : Bool
  req : Option Request
deriving DecidableEq

/-- The two process-wide sinks: the logging client and the error-reporting
client, each as the list of entries it has received. -/
structure Sinks where
  logged : List LogSinkEntry
  reported : List ErrReport
deriving DecidableEq

/-- `(g *GcpLog) log(payload, request, responseMeta, severity)` of the
response-metadata variant (src/unnamed/part_003 lines 573-592): one entry to
the logging sink; with a request it carries the parsed request, the trace
triple and, when an extractor is configured, the user label. -/
def logRM (projectId : String) (extractUser : Option (Request → String)) (payload : String)
    (request : Option Request) (responseMeta : Option ResponseMetadata) (severity : Severity)
    (s : Sinks) : Except GoPanic Sinks :=
  let base : LogSinkEntry :=
    { payload := payload, severity := severity, httpRequest := none,
      trace := "", spanId := "", traceSampled := false, userLabel := none }
  match request with
  | none => .ok { s with logged := s.logged ++ [base] }
  | some r =>
    match parseTraceRM (headerGet r.headers "X-Cloud-Trace-Context") projectId with
    | .error p => .error p
    | .ok (trace, span, sampled) =>
      let entry :=
        { base with
          httpRequest := some (parseRequestRM r responseMeta)
          trace := trace
          spanId := span
          traceSampled := sampled
          userLabel := match extractUser with | some fu => some (fu r) | none => none }
      .ok { s with logged := s.logged ++ [entry] }

/-- `(g *GcpLog) err(err, request)` (src/unnamed/part_003 lines 594-604): one
entry to the error-reporting sink, always with a stack capture, with the
request when available. -/
def errRM (errMsg : String) (request : Option Request) (s : Sinks) : Sinks :=
  { s with reported := s.reported ++ [{ errMsg := errMsg, hasStack := true, req := request }] }

/-- `(g *GcpLog) WarnRM(err, request, responseMeta)` (src/unnamed/part_003
lines 535-541): dispatch the WARNING record to the logging sink and, only
when the GO_ENV environment variable reads "production", also to the
error-reporting sink. -/
def WarnRM (goEnv projectId : String) (extractUser : Option (Request → String))
    (errMsg : String) (request : Option Request) (responseMeta : Option ResponseMetadata)
    (s : Sinks) : Except GoPanic Sinks :=
  match logRM projectId extractUser errMsg request responseMeta .warning s with
  | .error p => .error p
  | .ok s1 => .ok (if goEnv = "production" then errRM errMsg request s1 else s1)

/-- `(g *GcpLog) ErrorRM(err, request, responseMeta)` (src/unnamed/part_003
lines 561-567): like `WarnRM` at ERROR severity. -/
def ErrorRM (goEnv projectId : String) (extractUser : Option (Request → String))
    (errMsg : String) (request : Option Request) (responseMeta : Option ResponseMetadata)
    (s : Sinks) : Except GoPanic Sinks :=
  match logRM projectId extractUser errMsg request responseMeta .error s with
  | .error p => .error p
  | .ok s1 => .ok (if goEnv = "production" then errRM errMsg request s1 else s1)

/-- `(g *GcpLog) log(payload, request, severity)` of the request-bound
variant (src/unnamed/part_003 lines 324-347): like `logRM` but the request
is parsed by `parseRequestReq` (which reads the nil `Response` pointer) and
the trace by the non-rewriting `parseTrace`. -/
def logReq (projectId : String) (extractUser : Option (Request → String)) (payload : String)
    (request : Option Request) (severity : Severity) (s : Sinks) : Except GoPanic Sinks :=
  let base : LogSinkEntry :=
    { payload := payload, severity := severity, httpRequest := none,
      trace := "", spanId := "", traceSampled := false, userLabel := none }
  match request with
  | none => .ok { s with logged := s.logged ++ [base] }
  | some r =>
    match parseRequestReq r with
    | .error p => .error p
    | .ok hr =>
      match parseTraceR (headerGet r.headers "X-Cloud-Trace-Context") projectId with
      | .error p => .error p
      | .ok (trace, span, sampled) =>
        let entry :=
          { base with
            httpRequest := some hr
            trace := trace
            spanId := span
            traceSampled := sampled
            userLabel := match extractUser with | some fu => some (fu r) | none => none }
        .ok { s with logged := s.logged ++ [entry] }

/-- `(g *GcpLog) LogR(log, request)` (src/unnamed/part_003 lines 284-286). -/
def LogR (projectId : String) (extractUser : Option (Request → String)) (payload : String)
    (request : Option Request) (s : Sinks) : Except GoPanic Sinks :=
  logReq projectId extractUser payload request .info s

/-- `(g *GcpLog) WarnR(err, request)` (src/unnamed/part_003 lines 296-302). -/
def WarnR (goEnv projectId : String) (extractUser : Option (Request → String))
    (errMsg : String) (request : Option Request) (s : Sinks) : Except GoPanic Sinks :=
  match logReq projectId extractUser errMsg request .warning s with
  | .error p => .error p
  | .ok s1 => .ok (if goEnv = "production" then errRM errMsg request s1 else s1)

/-- `(g *GcpLog) ErrorR(err, request)` (src/unnamed/part_003 lines 312-318). -/
def ErrorR (goEnv projectId : String) (extractUser : Option (Request → String))
    (errMsg : String) (request : Option Request) (s : Sinks) : Except GoPanic Sinks :=
  match logReq projectId extractUser errMsg request .error s with
  | .error p => .error p
  | .ok s1 => .ok (if goEnv = "production" then errRM errMsg request s1 else s1)

/-- `LogMetadata` of the stderr-JSON variant (src/gcplog.go lines 20-26);
`request` embeds the wrapped original request of the HTTP request record. -/
structure LogMetadata where
  user : String := ""
  trace : String := ""
  traceSampled : Bool := false
  span : String := ""
  request : Option Request := none
deriving DecidableEq

/-- The nested httpRequest object of the stderr JSON schema
(src/gcplog.go lines 152-168, fields filled at lines 189-195). -/
structure StderrHttpRequest where
  requestMethod : String
  requestUrl : String
  userAgent : String
  remoteIp : String
  referer : String
deriving DecidableEq

/-- One JSON line written to the standard error stream
(src/gcplog.go lines 139-150), as a structured record. -/
structure StderrEntry where
  severity : Severity
  message : String
  httpRequest : Option StderrHttpRequest
  trace : String
  spanId : String
  traceSampled : Bool
deriving DecidableEq

/-- The entry built by `(g *GcpLog) log` of the stderr-JSON variant
(src/gcplog.go lines 182-206) from a non-nil metadata pointer. -/
def mkStderrEntry (payload : String) (m : LogMetadata) (severity : Severity) : StderrEntry :=
  let base : StderrEntry :=
    { severity := severity, message := payload, httpRequest := none,
      trace := "", spanId := "", traceSampled := false }
  let withReq : StderrEntry :=
    match m.request with
    | some r =>
      let hr : StderrHttpRequest :=
        { requestMethod := r.method, requestUrl := r.urlPath,
          userAgent := headerGet r.headers "User-Agent",
          remoteIp := r.remoteAddr,
          referer := headerGet r.headers "Referer" }
      { base with httpRequest := some hr }
    | none => base
  let withTrace : StderrEntry :=
    if m.trace ≠ "" then { withReq with trace := m.trace, traceSampled := m.traceSampled }
    else withReq
  if m.span ≠ "" then { withTrace with spanId := m.span } else withTrace

/-- `(g *GcpLog) log(payload, metadata, severity)` of the stderr-JSON
variant (src/gcplog.go lines 182-206): the branch on `metadata.request`
dereferences the metadata pointer without a nil check, so a nil metadata
pointer panics before the entry is encoded to the stream. -/
def stderrLog (payload : String) (metadata : Option LogMetadata) (severity : Severity)
    (stderrLines : List StderrEntry) : Except GoPanic (List StderrEntry) :=
  match metadata with
  | none => .error .nilPointerDereference
  | some m => .ok (stderrLines ++ [mkStderrEntry payload m severity])

/-- `(g *GcpLog) Log(log)` of the stderr-JSON variant (src/gcplog.go lines
112-114): forwards to the internal log function with a nil metadata
pointer at INFO severity. -/
def stderrVariantLog (payload : String) (stderrLines : List StderrEntry) :
    Except GoPanic (List StderrEntry) :=
  stderrLog payload none .info stderrLines

/-- `ErrorEntry` of the stderr-JSON variant (src/gcplog.go lines 28-32):
the error, whether a stack trace slice was attached, and the optional
metadata pointer. -/
structure StderrErrEntry where
  errMsg : String
  hasStack : Bool
  meta : Option LogMetadata
deriving DecidableEq

/-- `(g *GcpLog) err(err, stacktrace, metadata)` (src/gcplog.go lines
236-248): one report, with the request only when metadata and its request
are both present. -/
def stderrErrReport (errMsg : String) (hasStack : Bool) (metadata : Option LogMetadata)
    (reports : List ErrReport) : List ErrReport :=
  reports ++ [{ errMsg := errMsg, hasStack := hasStack,
                req := metadata.bind (fun m => m.request) }]

/-- `(g *GcpLog) Warn(err)` of the stderr-JSON variant (src/gcplog.go lines
120-126): WARNING record to the stream, and a report only when GO_ENV reads
"production". -/
def stderrWarn (goEnv : String) (e : StderrErrEntry) (lines : List StderrEntry)
    (reports : List ErrReport) : Except GoPanic (List StderrEntry × List ErrReport) :=
  match stderrLog e.errMsg e.meta .warning lines with
  | .error p => .error p
  | .ok lines2 =>
    .ok (lines2,
      if goEnv = "production" then stderrErrReport e.errMsg e.hasStack e.meta reports
      else reports)

/-- `(g *GcpLog) Error(err)` of the stderr-JSON variant (src/gcplog.go lines
128-134): like `stderrWarn` at ERROR severity. -/
def stderrError (goEnv : String) (e : StderrErrEntry) (lines : List StderrEntry)
    (reports : List ErrReport) : Except GoPanic (List StderrEntry × List ErrReport) :=
  match stderrLog e.errMsg e.meta .error lines with
  | .error p => .error p
  | .ok lines2 =>
    .ok (lines2,
      if goEnv = "production" then stderrErrReport e.errMsg e.hasStack e.meta reports
      else reports)

/-- A concrete GET request to /x with no headers, used as input in the
closed instance theorems. -/
def reqGetX : Request :=
  { method := "GET", urlPath := "/x", headers := [] }

theorem stringMk_inj {a b : List Char} : String.mk a = String.mk b ↔ a = b := by
  constructor
  · intro h
    exact congrArg String.data h
  · intro h
    exact congrArg String.mk h

theorem takeWhile_of_all {p : Char → Bool} {l : List Char} (h : ∀ c ∈ l, p c = true) :
    l.takeWhile p = l := by
  have h2 := @List.takeWhile_append_of_pos Char p l [] h
  simpa using h2

theorem dropWhile_of_all {p : Char → Bool} {l : List Char} (h : ∀ c ∈ l, p c = true) :
    l.dropWhile p = [] := by
  have h2 := @List.dropWhile_append_of_pos Char p l [] h
  simpa using h2

theorem traceSubmatch_mkHeader (t : List Char) (s : Option (List Char)) (f : Option Char)
    (ht : ∀ c ∈ t, isTraceHex c = true)
    (hs : ∀ x ∈ s.toList, x ≠ [] ∧ ∀ c ∈ x, isTraceHex c = true)
    (hf : ∀ d ∈ f.toList, isDigitChar d = true) :
    traceSubmatch (t ++ spanPart s ++ flagPart f) = (t, s.getD [], f.toList) := by
  have hsemi : isTraceHex ';' = false := by decide
  have hslash : isTraceHex '/' = false := by decide
  cases s with
  | none =>
    cases f with
    | none =>
      simp [traceSubmatch, spanPart, flagPart,
        takeWhile_of_all ht, dropWhile_of_all ht]
    | some d =>
      have hd : isDigitChar d = true := hf d (by simp)
      have htk : (t ++ [';', 'o', '=', d]).takeWhile isTraceHex = t := by
        rw [List.takeWhile_append_of_pos ht]
        simp [List.takeWhile, hsemi]
      have hdr : (t ++ [';', 'o', '=', d]).dropWhile isTraceHex = [';', 'o', '=', d] := by
        rw [List.dropWhile_append_of_pos ht]
        simp [List.dropWhile, hsemi]
      simp [traceSubmatch, spanPart, flagPart, htk, hdr, hd]
  | some x =>
    obtain ⟨hxne, hxhex⟩ := hs x (by simp)
    cases f with
    | none =>
      have heq : t ++ spanPart (some x) ++ flagPart none = t ++ ('/' :: x) := by
        simp [spanPart, flagPart]
      rw [heq]
      have htk : (t ++ ('/' :: x)).takeWhile isTraceHex = t := by
        rw [List.takeWhile_append_of_pos ht]
        simp [List.takeWhile, hslash]
      have hdr : (t ++ ('/' :: x)).dropWhile isTraceHex = '/' :: x := by
        rw [List.dropWhile_append_of_pos ht]
        simp [List.dropWhile, hslash]
      simp [traceSubmatch, htk, hdr, takeWhile_of_all hxhex, dropWhile_of_all hxhex, hxne]
    | some d =>
      have hd : isDigitChar d = true := hf d (by simp)
      have heq : t ++ spanPart (some x) ++ flagPart (some d)
          = t ++ ('/' :: (x ++ [';', 'o', '=', d])) := by
        simp [spanPart, flagPart]
      rw [heq]
      have htk : (t ++ ('/' :: (x ++ [';', 'o', '=', d]))).takeWhile isTraceHex = t := by
        rw [List.takeWhile_append_of_pos ht]
        simp [List.takeWhile, hslash]
      have hdr : (t ++ ('/' :: (x ++ [';', 'o', '=', d]))).dropWhile isTraceHex
          = '/' :: (x ++ [';', 'o', '=', d]) := by
        rw [List.dropWhile_append_of_pos ht]
        simp [List.dropWhile, hslash]
      have hxtk : (x ++ [';', 'o', '=', d]).takeWhile isTraceHex = x := by
        rw [List.takeWhile_append_of_pos hxhex]
        simp [List.takeWhile, hsemi]
      have hxdr : (x ++ [';', 'o', '=', d]).dropWhile isTraceHex = [';', 'o', '=', d] := by
        rw [List.dropWhile_append_of_pos hxhex]
        simp [List.dropWhile, hsemi]
      simp [traceSubmatch, htk, hdr, hxtk, hxdr, hxne, hd]

theorem data_mk (l : List Char) : (String.mk l).data = l := rfl

theorem parseTraceR_eval (header pid : String) :
    parseTraceR header pid =
      .ok (String.mk (traceSubmatch header.data).1,
        (if String.mk (traceSubmatch header.data).2.1 = "0" then ""
         else String.mk (traceSubmatch header.data).2.1),
        decide (String.mk (traceSubmatch header.data).2.2 = "1")) := rfl

theorem parseTraceRM_eval (header pid : String) :
    parseTraceRM header pid =
      .ok ((if String.mk (traceSubmatch header.data).1 ≠ "" then
            "projects/" ++ pid ++ "/traces/" ++ String.mk (traceSubmatch header.data).1
          else String.mk (traceSubmatch header.data).1),
        (if String.mk (traceSubmatch header.data).2.1 = "0" then ""
         else String.mk (traceSubmatch header.data).2.1),
        decide (String.mk (traceSubmatch header.data).2.2 = "1")) := rfl

theorem spanGroup_normalized (s : Option (List Char)) :
    (if String.mk (s.getD []) = "0" then "" else String.mk (s.getD []))
      = (match s with
         | some sx => if sx = ['0'] then "" else String.mk sx
         | none => "") := by
  cases s with
  | none =>
    rw [show (none : Option (List Char)).getD [] = [] from rfl, if_neg (by decide)]
  | some sx =>
    by_cases hx : sx = ['0']
    · subst hx
      simp
    · have hne : ¬ String.mk sx = "0" := by
        rw [show ("0" : String) = String.mk ['0'] from rfl, stringMk_inj]
        exact hx
      simp [hne, hx]

theorem flagGroup_sampled (f : Option Char) :
    decide (String.mk f.toList = "1") = decide (f = some '1') := by
  cases f with
  | none => decide
  | some d =>
    apply decide_eq_decide.mpr
    rw [show (Option.some d).toList = [d] from rfl,
      show ("1" : String) = String.mk ['1'] from rfl, stringMk_inj]
    simp

theorem stringMk_ne_empty {t : List Char} (h : t ≠ []) : String.mk t ≠ "" := by
  intro habs
  exact h (by rw [show ("" : String) = String.mk [] from rfl, stringMk_inj] at habs; exact habs)

theorem runCalls_writes_size (hb : Nat) (bs : List String) (rw : ResponseWriter) :
    (runCalls hb (bs.map .write) rw).size = rw.size := by
  induction bs generalizing rw with
  | nil => rfl
  | cons b rest ih =>
    simpa [runCalls, ResponseWriter.writeBody] using ih (rw.writeBody b)

theorem runCalls_status_committed (hb : Nat) (calls : List HandlerCall) (rw : ResponseWriter)
    (h : rw.wroteHeader = true) :
    (runCalls hb calls rw).status = rw.status := by
  induction calls generalizing rw with
  | nil => rfl
  | cons c rest ih =>
    cases c with
    | writeHeader code =>
      have hid : rw.writeHeader hb code = rw := by
        simp [ResponseWriter.writeHeader, h]
      simp only [runCalls, hid]
      exact ih rw h
    | write b =>
      have hkept : (rw.writeBody b).wroteHeader = true := h
      simp only [runCalls]
      rw [ih (rw.writeBody b) hkept]
      rfl

theorem runCalls_status_uncommitted (hb : Nat) (calls : List HandlerCall) (rw : ResponseWriter)
    (h : rw.wroteHeader = false) :
    (runCalls hb calls rw).status = (firstStatus calls).getD rw.status := by
  induction calls generalizing rw with
  | nil => rfl
  | cons c rest ih =>
    cases c with
    | write b =>
      have hkept : (rw.writeBody b).wroteHeader = false := h
      simp only [runCalls, firstStatus]
      rw [ih (rw.writeBody b) hkept]
      rfl
    | writeHeader code =>
      have hcommit : (rw.writeHeader hb code).wroteHeader = true := by
        simp [ResponseWriter.writeHeader, h]
      have hstat : (rw.writeHeader hb code).status = code := by
        simp [ResponseWriter.writeHeader, h]
      simp only [runCalls, firstStatus]
      rw [runCalls_status_committed hb rest _ hcommit, hstat]
      rfl

theorem logRM_ok (projectId : String) (extractUser : Option (Request → String))
    (payload : String) (request : Option Request) (responseMeta : Option ResponseMetadata)
    (severity : Severity) (s : Sinks) :
    ∃ entry, logRM projectId extractUser payload request responseMeta severity s
        = .ok { s with logged := s.logged ++ [entry] }
      ∧ entry.severity = severity ∧ entry.payload = payload := by
  cases request with
  | none => exact ⟨_, rfl, rfl, rfl⟩
  | some r => exact ⟨_, rfl, rfl, rfl⟩

theorem mkStderrEntry_severity (payload : String) (m : LogMetadata) (severity : Severity) :
    (mkStderrEntry payload m severity).severity = severity := by
  unfold mkStderrEntry
  cases m.request <;> split_ifs <;> rfl

theorem mkStderrEntry_message (payload : String) (m : LogMetadata) (severity : Severity) :
    (mkStderrEntry payload m severity).message = payload := by
  unfold mkStderrEntry
  cases m.request <;> split_ifs <;> rfl

/-- C1: for every finalized status code the middleware and Gin adapters
assign INFO exactly below 400, WARNING exactly in 400..499 and ERROR exactly
from 500 up; the three-way branch is a total function of the status with
literal thresholds, and the emitted severity does not depend on the
configurable options. -/
theorem claim1_outcome_classifier (s : Int) (opts : Options) (r : Request)
    (rw : ResponseWriter) :
    (middlewareSeverity s = .info ↔ s < 400) ∧
    (middlewareSeverity s = .warning ↔ 400 ≤ s ∧ s < 500) ∧
    (middlewareSeverity s = .error ↔ 500 ≤ s) ∧
    ginSeverity s = middlewareSeverity s ∧
    (middlewareDispatch opts r rw).severity = middlewareSeverity rw.status := by
  refine ⟨?_, ?_, ?_, rfl, ?_⟩
  · unfold middlewareSeverity
    split_ifs with h1 h2 <;> simp_all <;> omega
  · unfold middlewareSeverity
    split_ifs with h1 h2 <;> simp_all <;> omega
  · unfold middlewareSeverity
    split_ifs with h1 h2 <;> simp_all <;> omega
  · unfold middlewareDispatch middlewareSeverity
    split_ifs <;> rfl

/-- C2: on a well-formed trace header, TRACE_ID with optional /SPAN_ID and
optional sampling flag, both regex-based extractors return the leading hex
run as the trace id (the metadata variant prefixed into the fully qualified
resource name), the hex run after the slash as the span id with a literal
"0" normalized to empty, and sampled exactly when the flag digit is 1; in
particular the two concrete inputs of the claim. -/
theorem claim2_trace_extractor (pid : String) (t : List Char) (s : Option (List Char))
    (f : Option Char)
    (htne : t ≠ []) (ht : ∀ c ∈ t, isTraceHex c = true)
    (hs : ∀ x ∈ s.toList, x ≠ [] ∧ ∀ c ∈ x, isTraceHex c = true)
    (hf : ∀ d ∈ f.toList, isDigitChar d = true) :
    (parseTraceR (mkTraceHeader t s f) pid
      = .ok (String.mk t,
          (match s with
           | some sx => if sx = ['0'] then "" else String.mk sx
           | none => ""),
          decide (f = some '1'))) ∧
    (parseTraceRM (mkTraceHeader t s f) pid
      = .ok ("projects/" ++ pid ++ "/traces/" ++ String.mk t,
          (match s with
           | some sx => if sx = ['0'] then "" else String.mk sx
           | none => ""),
          decide (f = some '1'))) ∧
    parseTraceR "abc123/456;o=1" pid = .ok ("abc123", "456", true) ∧
    parseTraceR "abc123/0;o=0" pid = .ok ("abc123", "", false) := by
  have hsub : traceSubmatch (mkTraceHeader t s f).data = (t, s.getD [], f.toList) := by
    rw [show (mkTraceHeader t s f).data = t ++ spanPart s ++ flagPart f from rfl]
    exact traceSubmatch_mkHeader t s f ht hs hf
  refine ⟨?_, ?_, rfl, rfl⟩
  · rw [parseTraceR_eval, hsub, spanGroup_normalized, flagGroup_sampled]
    cases s <;> rfl
  · rw [parseTraceRM_eval, hsub, spanGroup_normalized, flagGroup_sampled,
      if_pos (stringMk_ne_empty htne)]
    cases s <;> rfl

theorem claim2_trace_extractor_witness :
    ("abc123".data ≠ ([] : List Char)) ∧
    parseTraceR "abc123/456;o=1" "my-proj" = .ok ("abc123", "456", true) := by
  refine ⟨by decide, ?_⟩
  have h := claim2_trace_extractor "my-proj" "abc123".data (some "456".data) (some '1')
    (by decide) (by decide) (by decide) (by decide)
  exact h.2.2.1

/-- C3 counterexample: a panic whose value does not implement the error
interface, for example the plain string boom, is not absorbed: the recovery
block emits no ERROR record and re-panics at its own type assertion, so the
claim that every possible panic value is absorbed is false on the code. -/
theorem claim3_counterexample :
    (recoverBlock (.nonErrValue "boom")).repanicked = true ∧
    (recoverBlock (.nonErrValue "boom")).emitted = [] ∧
    ¬ (∀ v : PanicValue, (recoverBlock v).repanicked = false) := by
  refine ⟨rfl, rfl, fun h => ?_⟩
  have hb := h (.nonErrValue "boom")
  simp [recoverBlock, assertError] at hb

/-- C3 amended: a handler panic whose value implements the error interface
is recovered at the middleware boundary, the 500 header is forced, one ERROR
record is built from the value and nothing is re-raised; a panic with a
non-error value still gets the forced 500 header write but the recovery
block itself re-panics at the type assertion and emits nothing. -/
theorem claim3_amended (m d : String) (opts : Options) (r : Request) (hb : Nat) :
    middlewareRun opts r hb (.panics (.errValue m))
      = { dispatch := none,
          recovery := some { statusForced := some 500, emitted := [m], repanicked := false } } ∧
    middlewareRun opts r hb (.panics (.nonErrValue d))
      = { dispatch := none,
          recovery := some { statusForced := some 500, emitted := [], repanicked := true } } :=
  ⟨rfl, rfl⟩

/-- C4 counterexample: in the stderr-JSON variant a WARNING or ERROR entry
whose metadata pointer is nil — exactly what the recovery path of the
in-package middleware constructs — panics at the unchecked metadata.request
read before reaching either sink: with the production indicator absent the
log sink does not receive the record, refuting that every WARNING or ERROR
emission is always forwarded to the log sink; even under production neither
sink is called. -/
theorem claim4_counterexample :
    stderrWarn "" { errMsg := "boom", hasStack := true, meta := none } [] []
      = .error .nilPointerDereference ∧
    stderrError "" { errMsg := "boom", hasStack := true, meta := none } [] []
      = .error .nilPointerDereference ∧
    stderrWarn "production" { errMsg := "boom", hasStack := true, meta := none } [] []
      = .error .nilPointerDereference ∧
    stderrError "production" { errMsg := "boom", hasStack := true, meta := none } [] []
      = .error .nilPointerDereference :=
  ⟨rfl, rfl, rfl, rfl⟩

/-- C4 amended: in the response-metadata variant every WARNING or ERROR
emission forwards exactly one record to the log sink and calls the
error-reporting sink exactly when the GO_ENV indicator equals production,
leaving it untouched otherwise; the stderr-JSON variant behaves the same
whenever the entry carries a non-nil metadata pointer, while with a nil
metadata pointer its Warn and Error panic at the unchecked metadata.request
read before reaching either sink, so no sink receives anything. -/
theorem claim4_production_gate (goEnv projectId : String)
    (extractUser : Option (Request → String)) (e : String) (req : Option Request)
    (meta : Option ResponseMetadata) (s : Sinks) (m : LogMetadata) (hasStack : Bool)
    (lines : List StderrEntry) (reports : List ErrReport) :
    (∃ entry, WarnRM goEnv projectId extractUser e req meta s
        = .ok { logged := s.logged ++ [entry],
                reported :=
                  if goEnv = "production"
                  then s.reported ++ [{ errMsg := e, hasStack := true, req := req }]
                  else s.reported }
      ∧ entry.severity = .warning ∧ entry.payload = e) ∧
    (∃ entry, ErrorRM goEnv projectId extractUser e req meta s
        = .ok { logged := s.logged ++ [entry],
                reported :=
                  if goEnv = "production"
                  then s.reported ++ [{ errMsg := e, hasStack := true, req := req }]
                  else s.reported }
      ∧ entry.severity = .error ∧ entry.payload = e) ∧
    stderrWarn goEnv { errMsg := e, hasStack := hasStack, meta := some m } lines reports
      = .ok (lines ++ [mkStderrEntry e m .warning],
          if goEnv = "production"
          then reports ++ [{ errMsg := e, hasStack := hasStack, req := m.request }]
          else reports) ∧
    stderrError goEnv { errMsg := e, hasStack := hasStack, meta := some m } lines reports
      = .ok (lines ++ [mkStderrEntry e m .error],
          if goEnv = "production"
          then reports ++ [{ errMsg := e, hasStack := hasStack, req := m.request }]
          else reports) ∧
    (mkStderrEntry e m .warning).severity = .warning ∧
    (mkStderrEntry e m .warning).message = e ∧
    (mkStderrEntry e m .error).severity = .error ∧
    (mkStderrEntry e m .error).message = e ∧
    stderrWarn goEnv { errMsg := e, hasStack := hasStack, meta := none } lines reports
      = .error .nilPointerDereference ∧
    stderrError goEnv { errMsg := e, hasStack := hasStack, meta := none } lines reports
      = .error .nilPointerDereference := by
  obtain ⟨w1, hw1, hsev1, hpay1⟩ :=
    logRM_ok projectId extractUser e req meta .warning s
  obtain ⟨w2, hw2, hsev2, hpay2⟩ :=
    logRM_ok projectId extractUser e req meta .error s
  refine ⟨⟨w1, ?_, hsev1, hpay1⟩, ⟨w2, ?_, hsev2, hpay2⟩, ?_, ?_,
    mkStderrEntry_severity e m .warning, mkStderrEntry_message e m .warning,
    mkStderrEntry_severity e m .error, mkStderrEntry_message e m .error, rfl, rfl⟩
  · simp only [WarnRM, hw1]
    by_cases hprod : goEnv = "production" <;> simp [hprod, errRM]
  · simp only [ErrorRM, hw2]
    by_cases hprod : goEnv = "production" <;> simp [hprod, errRM]
  · rfl
  · rfl

/-- C5 (code bug evidence): for the response interceptor, a sequence of
write calls leaves the recorded byte count unchanged — the source never adds
the length of the written bytes — so after writing the nine body bytes of
not found the size is 0 even though the body was captured in full. -/
theorem claim5_write_size (hb : Nat) (bs : List String) :
    (runCalls hb (bs.map .write) wrapResponseWriter).size = 0 ∧
    (runCalls 37 [.write "not ", .write "found"] wrapResponseWriter).size = 0 ∧
    (runCalls 37 [.write "not ", .write "found"] wrapResponseWriter).body = "not found" := by
  refine ⟨?_, rfl, rfl⟩
  simpa using runCalls_writes_size hb bs wrapResponseWriter

/-- C6: the first setStatus call records its code and sets the latch; a
later setStatus call, with any header size, returns the state completely
unchanged — same status, same size, nothing newly forwarded — and over any
call sequence from a fresh wrapper the recorded status is the code of the
first setStatus call (0, the Go zero value, if there is none). -/
theorem claim6_header_latch (hb hb2 : Nat) (c1 c2 s0 : Int) (n : Nat) (b : String)
    (f : List SinkCall) (calls : List HandlerCall) :
    (ResponseWriter.writeHeader ⟨s0, n, b, false, f⟩ hb c1).status = c1 ∧
    (ResponseWriter.writeHeader ⟨s0, n, b, false, f⟩ hb c1).wroteHeader = true ∧
    ResponseWriter.writeHeader (ResponseWriter.writeHeader ⟨s0, n, b, false, f⟩ hb c1) hb2 c2
      = ResponseWriter.writeHeader ⟨s0, n, b, false, f⟩ hb c1 ∧
    (runCalls hb calls wrapResponseWriter).status = (firstStatus calls).getD 0 := by
  refine ⟨rfl, rfl, rfl, ?_⟩
  exact runCalls_status_uncommitted hb calls wrapResponseWriter rfl

/-- C7: an absent trace header reads as the empty string and every parse
variant completes without a panic, returning empty trace id, empty span id
and a false sampling flag (the split-based variant returns its single empty
trace output). -/
theorem claim7_empty_trace_header (pid : String) :
    parseTraceRM "" pid = .ok ("", "", false) ∧
    parseTraceR "" pid = .ok ("", "", false) ∧
    parseTraceSplit "" pid = "" :=
  ⟨rfl, rfl, rfl⟩

/-- C8 counterexample: a handler that sets status 404 and writes nothing
leaves an empty captured body; the default error builder then produces an
error with the empty message, not the method plus path string GET /x the
claim requires, because its branch tests the buffer pointer for nil and the
middleware always passes a non-nil buffer. -/
theorem claim8_counterexample :
    middlewareDispatch defaultOptions reqGetX
        (runCalls 0 [.writeHeader 404] wrapResponseWriter)
      = .warnRM "" ∧
    ("" : String) ≠ "GET /x" := by
  exact ⟨rfl, by decide⟩

/-- C8 amended: the default error builder returns the captured body text
whenever a body buffer is supplied, even when that text is empty; only a nil
buffer pointer falls back to the method plus path string. The middleware
always supplies the buffer, so a 404 with body not found yields exactly that
message. -/
theorem claim8_amended (r : Request) (status : Int) (size : Nat) (b : String) :
    defaultErrorBuilder r status size (some b) = b ∧
    defaultErrorBuilder r status size none = r.method ++ " " ++ r.urlPath ∧
    middlewareDispatch defaultOptions reqGetX
        (runCalls 0 [.writeHeader 404, .write "not found"] wrapResponseWriter)
      = .warnRM "not found" :=
  ⟨rfl, rfl, rfl⟩

/-- C9: in the stderr-JSON variant, the metadata-free INFO entry point Log
passes a nil metadata pointer to the internal log function, which reads the
request field of that pointer without a nil check: every call panics with a
nil-pointer dereference before any line is written to the stream. -/
theorem claim9_stderr_log_nil (payload : String) (lines : List StderrEntry) :
    stderrVariantLog payload lines = .error .nilPointerDereference :=
  rfl

/-- C10: in the request-bound variant, LogR, WarnR and ErrorR on any non-nil
server request — whose Response pointer is nil — panic with a nil-pointer
dereference inside parseRequest, which reads the status and content length
of that nil Response. -/
theorem claim10_request_variant_panic (projectId payload goEnv : String)
    (extractUser : Option (Request → String)) (method path : String)
    (headers : List (String × String)) (clen : Int) (raddr : String) (s : Sinks) :
    LogR projectId extractUser payload
        (some { method := method, urlPath := path, headers := headers,
                contentLength := clen, remoteAddr := raddr, response := none }) s
      = .error .nilPointerDereference ∧
    WarnR goEnv projectId extractUser payload
        (some { method := method, urlPath := path, headers := headers,
                contentLength := clen, remoteAddr := raddr, response := none }) s
      = .error .nilPointerDereference ∧
    ErrorR goEnv projectId extractUser payload
        (some { method := method, urlPath := path, headers := headers,
                contentLength := clen, remoteAddr := raddr, response := none }) s
      = .error .nilPointerDereference :=
  ⟨rfl, rfl, rfl⟩

end Gcplog
